import Mathlib

/-!
Verification of the MedSynthAI session-orchestration layer.

This file shallowly embeds the decision code of the repository and proves
(or refutes) the frozen specification claims about it.  The embedded
functions are direct translations of:

- src/agent_system/controller/agent.py (TaskController.run,
  _get_score_driven_result, _get_simple_mode_result, _get_fallback_result,
  _ensure_result_type)
- src/app/dialogue/api/respond.py (the respond endpoint)
- src/core/registrar.py (the workflow registry state initialised in lifespan)
- src/agent_system/monitor/response_model.py (MonitorResult)
- src/agent_system/evaluator/score_history.py (ScoreHistoryManager)
- src/guidance/loader.py (GuidanceLoader.get_inquiry_guidance_data)

Python floats used for completion scores are modelled as rationals (the code
only compares and stores them), dicts as association lists, and fallible
collaborator calls (LLM invocations, the awaited workflow turn) as explicit
Except / Option parameters.
-/

namespace MedSynthAI

/-- Model of the python dict lookup d.get(k): first binding of the key in an
association list. -/
def assocGet {α : Type} : List (String × α) → String → Option α
  | [], _ => none
  | (k, v) :: rest, key => if k = key then some v else assocGet rest key

/-- Model of the python dict assignment d[k] = v: replace the first binding of
the key, or append a new binding. -/
def assocSet {α : Type} : List (String × α) → String → α → List (String × α)
  | [], key, v => [(key, v)]
  | (k, w) :: rest, key, v =>
      if k = key then (key, v) :: rest else (k, w) :: assocSet rest key v

/-! ### Task controller data model (src/agent_system/controller) -/

/-- One entry of the pending-task list handed to the controller: the python
dicts carry a name and a description field. -/
structure TaskEntry where
  name : String
  description : String
deriving DecidableEq, Repr

/-- ControllerDecision (src/agent_system/controller/response_model.py):
the structured result of the task controller. -/
structure ControllerDecision where
  selected_task : String
  specific_guidance : String
deriving DecidableEq, Repr

/-- Interview phases of the task manager (triage, present illness,
past history, done). -/
inductive Phase
  | triage
  | presentIllness
  | pastHistory
  | done
deriving DecidableEq, Repr

/-- The slice of the task manager that _get_score_driven_result consults:
get_current_phase and get_task_scores (a score dict per phase). -/
structure TaskManager where
  currentPhase : Phase
  taskScores : Phase → List (String × ℚ)

/-- Score of a pending task: phase_scores.get(task_name, 0.0). -/
def taskScore (scores : List (String × ℚ)) (t : TaskEntry) : ℚ :=
  (assocGet scores t.name).getD 0

/-- The fixed guidance string returned by the score-driven and simple modes. -/
def scoreDrivenGuidance : String :=
  "请按照标准医疗询问流程进行患者评估，基于患者临床信息选择最重要的询问任务，提供针对性的、具体的、可操作的询问指导建议，确保指导内容仅限于医生可以通过询问获取的信息。"

/-- The decision returned by _get_score_driven_result when pending_tasks is
empty. -/
def emptyPendingDecision : ControllerDecision :=
  ⟨"基本信息收集", "当前没有待执行任务，请按照标准医疗询问流程进行患者评估。"⟩

/-- The selection loop of _get_score_driven_result: lowest_score_task starts
as None with lowest_score = infinity, and each pending task replaces the
current best exactly when its score is strictly lower (a finite score is
always strictly below the initial infinity). -/
def lowestLoop (scores : List (String × ℚ)) :
    List TaskEntry → Option (TaskEntry × ℚ) → Option (TaskEntry × ℚ)
  | [], acc => acc
  | t :: ts, none => lowestLoop scores ts (some (t, taskScore scores t))
  | t :: ts, some (bt, bs) =>
      if taskScore scores t < bs then lowestLoop scores ts (some (t, taskScore scores t))
      else lowestLoop scores ts (some (bt, bs))

/-- TaskController._get_score_driven_result: on an empty pending list return
the fixed default decision; otherwise scan the pending tasks for the lowest
score (first occurrence wins) and, in the defensive branch where the scan
produced no task, fall back to pending_tasks[0]. -/
def getScoreDrivenResult (pending : List TaskEntry) (tm : TaskManager) :
    ControllerDecision :=
  match pending with
  | [] => emptyPendingDecision
  | t :: ts =>
      match lowestLoop (tm.taskScores tm.currentPhase) (t :: ts) none with
      | some (bt, _) => ⟨bt.name, scoreDrivenGuidance⟩
      | none => ⟨t.name, scoreDrivenGuidance⟩

/-- TaskController._get_simple_mode_result: pick the first pending task (or
the generic default when none are pending) with the fixed guidance. -/
def getSimpleModeResult (pending : List TaskEntry) : ControllerDecision :=
  match pending with
  | t :: _ => ⟨t.name, scoreDrivenGuidance⟩
  | [] => ⟨"基本信息收集", scoreDrivenGuidance⟩

/-- The guidance text of the controller fallback decision. -/
def fallbackGuidance : String :=
  "由于系统异常，请按照标准临床询问流程进行患者评估，重点询问患者的主要症状、起病过程和伴随症状等基本病史信息。"

/-- TaskController._get_fallback_result: first pending task, or the generic
default task when none are pending, with the fixed fallback guidance. -/
def getFallbackResult (pending : List TaskEntry) : ControllerDecision :=
  match pending with
  | t :: _ => ⟨t.name, fallbackGuidance⟩
  | [] => ⟨"基本信息收集", fallbackGuidance⟩

/-- Raw value delivered by the structured-output LLM call before
_ensure_result_type normalises it: a ControllerDecision instance, a dict
convertible into one, or anything else. -/
inductive LLMOutput
  | decision (d : ControllerDecision)
  | dictLike (d : ControllerDecision)
  | other
deriving DecidableEq, Repr

/-- TaskController._ensure_result_type. -/
def ensureResultType (r : LLMOutput) : ControllerDecision :=
  match r with
  | .decision d => d
  | .dictLike d => d
  | .other => getFallbackResult []

/-- The two boolean mode flags of the TaskController constructor. -/
structure ControllerConfig where
  simpleMode : Bool
  scoreDrivenMode : Bool
deriving DecidableEq, Repr

/-- The try-block of TaskController.run: score-driven mode when its flag is
set and a task manager was passed, else simple mode when that flag is set,
else the LLM call (which may fail) normalised by _ensure_result_type. -/
def controllerRunBody (cfg : ControllerConfig) (llm : Except String LLMOutput)
    (pending : List TaskEntry) (tm? : Option TaskManager) :
    Except String ControllerDecision :=
  match cfg.scoreDrivenMode, tm? with
  | true, some tm => Except.ok (getScoreDrivenResult pending tm)
  | _, _ =>
      if cfg.simpleMode then Except.ok (getSimpleModeResult pending)
      else llm.map ensureResultType

/-- TaskController.run: the try-block with the catch-all except clause that
substitutes _get_fallback_result on any failure. -/
def controllerRun (cfg : ControllerConfig) (llm : Except String LLMOutput)
    (pending : List TaskEntry) (tm? : Option TaskManager) : ControllerDecision :=
  match controllerRunBody cfg llm pending tm? with
  | Except.ok d => d
  | Except.error _ => getFallbackResult pending

/-! ### The respond endpoint (src/app/dialogue/api/respond.py) -/

/-- MAX_INPUT_LENGTH from respond.py. -/
def maxInputLength : Nat := 3000

/-- The guidance message returned when the sanitised patient content is
empty. -/
def emptyInputGuide : String :=
  "请描述您的症状，以便我们进行初步诊断。您可以告诉我您感觉不舒服的地方、症状开始的时间、严重程度等信息。"

/-- The friendly response substituted when the workflow turn times out. -/
def timeoutApology : String :=
  "抱歉，处理您的请求需要比预期更长的时间。请尝试提供更简洁或更具体的症状描述，或稍后再试。"

/-- The 400 detail for a malformed session id. -/
def invalidSessionDetail : String :=
  "Invalid session_id format. Must be a valid UUID."

/-- The length-limiting step of respond: inputs longer than
MAX_INPUT_LENGTH characters are truncated and suffixed with an ellipsis. -/
def truncateInput (s : String) : String :=
  if s.length > maxInputLength then (s.take maxInputLength) ++ "..." else s

/-- Model of the python str.strip() call of respond: drop leading and
trailing whitespace (structurally recursive so that concrete instances
evaluate). -/
def pyStrip (s : String) : String :=
  String.mk
    (((s.data.dropWhile Char.isWhitespace).reverse.dropWhile
      Char.isWhitespace).reverse)

/-- What the endpoint hands back: a normal response or the JSON error
produced from a raised HTTPException by the handler at the bottom of
respond. -/
inductive RespondResult
  | ok (session_id : String) (doctor_content : String)
  | err (status : Nat) (detail : String)
deriving DecidableEq, Repr

/-- app.state.medical_workflows together with a fresh-instance counter:
workflow instances are identified by the order of their construction. -/
structure WorkflowRegistry where
  workflows : List (String × Nat)
  nextWf : Nat
deriving DecidableEq, Repr

/-- Everything observable about one call of respond: the HTTP-level result,
the registry it leaves behind, whether the workflow turn was invoked, and
the local is_end flag when the turn stage ran. -/
structure RespondOutcome where
  result : RespondResult
  registry : WorkflowRegistry
  invokedWorkflow : Bool
  isEnd : Option Bool
deriving DecidableEq, Repr

/-- The get-or-create block of respond: look the session up in
medical_workflows, and if absent construct a fresh workflow and insert it. -/
def getOrCreateWorkflow (sid : String) (reg : WorkflowRegistry) :
    Nat × WorkflowRegistry :=
  match assocGet reg.workflows sid with
  | some w => (w, reg)
  | none => (reg.nextWf, ⟨assocSet reg.workflows sid reg.nextWf, reg.nextWf + 1⟩)

/-- The respond endpoint.  The UUID validator and the input sanitiser are
passed as opaque functions (is_valid_uuid and sanitize_input); turnResult is
the outcome of awaiting workflow.process_response under asyncio.wait_for,
with none standing for a TimeoutError. -/
def respond (validUuid : String → Bool) (sanitize : String → String)
    (turnResult : Option (String × Bool))
    (session_id patient_content : String)
    (reg : WorkflowRegistry) : RespondOutcome :=
  if session_id = "" then
    ⟨RespondResult.err 400 ("Missing session_id"), reg, false, none⟩
  else if validUuid session_id = false then
    ⟨RespondResult.err 400 invalidSessionDetail, reg, false, none⟩
  else
    let pc := truncateInput (sanitize patient_content)
    if pyStrip pc = "" then
      ⟨RespondResult.ok session_id emptyInputGuide, reg, false, none⟩
    else
      let wr := getOrCreateWorkflow session_id reg
      let dr := match turnResult with
        | some r => r
        | none => (timeoutApology, false)
      ⟨RespondResult.ok session_id dr.1, wr.2, true, some dr.2⟩

/-! ### Monitor result and score board (src/agent_system/monitor) -/

/-- MonitorResult (src/agent_system/monitor/response_model.py). -/
structure MonitorResult where
  completion_score : ℚ
  reason : String
deriving DecidableEq, Repr

/-- Pydantic construction of MonitorResult: the completion_score field
carries ge 0.0 and le 1.0 bounds, so construction fails on any value
outside the closed unit interval. -/
def mkMonitorResult (completion_score : ℚ) (reason : String) :
    Option MonitorResult :=
  if 0 ≤ completion_score ∧ completion_score ≤ 1 then
    some ⟨completion_score, reason⟩
  else none

/-- Modelled from the spec: the TaskScoreBoard holding a completion score
per (session, phase, task) triple.  The board implementation (the task
manager module) is not under src; only its record shape from spec section
4.1 is used: entries are added from assessor results. -/
abbrev ScoreBoard : Type := List ((String × Phase × String) × ℚ)

/-- Modelled from the spec: recording a constructed assessor result on the
board stores its completion score under the (session, phase, task) key. -/
def ScoreBoard.record (b : ScoreBoard) (key : String × Phase × String)
    (m : MonitorResult) : ScoreBoard :=
  (key, m.completion_score) :: b

/-- All scores held on the board lie in the closed unit interval. -/
def ScoreBoard.allInRange (b : ScoreBoard) : Prop :=
  ∀ p ∈ b, 0 ≤ p.2 ∧ p.2 ≤ 1

/-- Modelled from the spec: a fresh session starts with an empty board. -/
def ScoreBoard.empty : ScoreBoard := []

/-! ### Score history manager (src/agent_system/evaluator/score_history.py) -/

/-- One stored round: the dict appended by add_round_score. -/
structure RoundRecord where
  round : Int
  scores : List (String × ℚ)
  timestamp : Option Nat
deriving DecidableEq, Repr

/-- ScoreHistoryManager state: the _history dict from session id to its
list of round records. -/
structure ScoreHistoryManager where
  history : List (String × List RoundRecord)
deriving DecidableEq, Repr

/-- ScoreHistoryManager.add_round_score: ensure the session has a (possibly
empty) record list, then append the new round record. -/
def addRoundScore (mgr : ScoreHistoryManager) (round_number : Int)
    (scores : List (String × ℚ)) (session_id : String) : ScoreHistoryManager :=
  let prev := (assocGet mgr.history session_id).getD []
  ⟨assocSet mgr.history session_id
    (prev ++ [⟨round_number, scores, none⟩])⟩

/-- ScoreHistoryManager.get_historical_scores: empty when the session is
unknown or the current round is at most 1; otherwise the scores of the most
recently appended record (the python list index -1), or empty when the
session's list is empty. -/
def getHistoricalScores (mgr : ScoreHistoryManager) (current_round : Int)
    (session_id : String) : List (String × ℚ) :=
  match assocGet mgr.history session_id with
  | none => []
  | some records =>
      if current_round ≤ 1 then []
      else
        match records.getLast? with
        | some record => record.scores
        | none => []

/-! ### Guidance loader (src/guidance/loader.py) -/

/-- The bullet-list formatting of a guidance entry: one "- item" line per
item, newline separated. -/
def formatGuidanceList (l : List String) : String :=
  String.intercalate "\n" (l.map (fun item => "- " ++ item))

/-- GuidanceLoader.get_inquiry_guidance_data for a named department, with
the loaded guidance dict passed explicitly (the cache-refresh plumbing only
decides which dict is current): a missing department falls back to the
entry named 其他 when that exists, otherwise the empty string; a present
entry is formatted as a bullet list. -/
def getInquiryGuidanceData (allGuidance : List (String × List String))
    (department : String) : String :=
  if (assocGet allGuidance department).isSome then
    formatGuidanceList ((assocGet allGuidance department).getD [])
  else if (assocGet allGuidance ("其他")).isSome then
    formatGuidanceList ((assocGet allGuidance ("其他")).getD [])
  else ""

/-! ### Spec-modelled task catalog -/

/-- Modelled from the spec: the TaskCatalog (the ordered task list each
phase declares) lives in the task-manager module, which is not under src;
spec sections 2 and 8 declare department-classification tasks (deptPrimary
then deptSecondary) for the triage phase and symptom tasks for the history
phases. -/
def specCatalog : Phase → List String
  | Phase.triage => ["deptPrimary", "deptSecondary"]
  | Phase.presentIllness => ["symptom-onset", "symptom-character"]
  | Phase.pastHistory => ["past-disease-history"]
  | Phase.done => []

/-- Modelled from the spec: the first declared (catalog-order) task of a
phase. -/
def specFirstDeclaredTask (p : Phase) : String :=
  (specCatalog p).headD ""

/-! ### Helper lemmas -/

theorem assocGet_assocSet_self {α : Type} (l : List (String × α)) (k : String)
    (v : α) : assocGet (assocSet l k v) k = some v := by
  induction l with
  | nil => simp [assocSet, assocGet]
  | cons p rest ih =>
      obtain ⟨k', w⟩ := p
      by_cases h : k' = k
      · simp [assocSet, assocGet, h]
      · simp [assocSet, assocGet, h, ih]

theorem mkMonitorResult_range (s : ℚ) (r : String) (m : MonitorResult)
    (h : mkMonitorResult s r = some m) :
    0 ≤ m.completion_score ∧ m.completion_score ≤ 1 := by
  unfold mkMonitorResult at h
  split_ifs at h with hc
  · obtain rfl : (⟨s, r⟩ : MonitorResult) = m := Option.some.inj h
    exact hc

theorem getOrCreateWorkflow_found (sid : String) (reg : WorkflowRegistry)
    (w : Nat) (h : assocGet reg.workflows sid = some w) :
    getOrCreateWorkflow sid reg = (w, reg) := by
  simp [getOrCreateWorkflow, h]

theorem getOrCreateWorkflow_lookup (sid : String) (reg : WorkflowRegistry) :
    assocGet (getOrCreateWorkflow sid reg).2.workflows sid =
      some (getOrCreateWorkflow sid reg).1 := by
  unfold getOrCreateWorkflow
  cases h : assocGet reg.workflows sid with
  | some w => simp [h]
  | none => simp [h, assocGet_assocSet_self]

/-! ### Claim theorems -/

/-- C2: when the controller's decision step fails (an exception such as an
LLM call failure reaches the catch-all of TaskController.run), the call
returns the deterministic fallback decision, which names the first pending
task, or the generic default task 基本信息收集 when no tasks are pending,
with a non-empty guidance string; controllerRun is a total function, so the
failure never propagates to the caller. -/
theorem controllerRun_catches_failure (cfg : ControllerConfig)
    (tm? : Option TaskManager) (pending : List TaskEntry) (e : String)
    (h1 : cfg.simpleMode = false)
    (h2 : cfg.scoreDrivenMode = false ∨ tm? = none) :
    controllerRun cfg (Except.error e) pending tm? = getFallbackResult pending ∧
    (getFallbackResult pending).selected_task =
      (match pending with
       | [] => "基本信息收集"
       | t :: _ => t.name) ∧
    (getFallbackResult pending).specific_guidance ≠ "" := by
  refine ⟨?_, ?_, ?_⟩
  · unfold controllerRun controllerRunBody
    rcases h2 with h2 | h2
    · simp [h1, h2, Except.map]
    · cases hb : cfg.scoreDrivenMode <;> simp [h1, h2, hb, Except.map]
  · cases pending <;> rfl
  · have hg : fallbackGuidance ≠ "" := by decide
    cases pending <;> exact hg

/-- C2 witness: a concrete failing LLM call in normal mode yields the
fallback naming the first pending task with non-empty guidance. -/
theorem controllerRun_catches_failure_witness :
    (⟨false, false⟩ : ControllerConfig).simpleMode = false ∧
    ((⟨false, false⟩ : ControllerConfig).scoreDrivenMode = false ∨
      (none : Option TaskManager) = none) ∧
    (controllerRun ⟨false, false⟩ (Except.error ("llm down"))
        [⟨"任务A", "第一个任务"⟩] none =
      getFallbackResult [⟨"任务A", "第一个任务"⟩] ∧
    (getFallbackResult [(⟨"任务A", "第一个任务"⟩ : TaskEntry)]).selected_task =
      "任务A" ∧
    (getFallbackResult [(⟨"任务A", "第一个任务"⟩ : TaskEntry)]).specific_guidance ≠ "") :=
  ⟨rfl, Or.inl rfl,
    controllerRun_catches_failure ⟨false, false⟩ none
      [⟨"任务A", "第一个任务"⟩] ("llm down") rfl (Or.inl rfl)⟩

/-- C4: when the workflow turn exceeds the bounded timeout (turnResult is
none), the caller receives the fallback apology and the local terminal flag
is false; the session's workflow stays registered, so the session remains
resumable on the next call. -/
theorem respond_timeout_not_terminal (validUuid : String → Bool)
    (sanitize : String → String) (sid content : String)
    (reg : WorkflowRegistry)
    (h1 : sid ≠ "") (h2 : validUuid sid = true)
    (h3 : pyStrip (truncateInput (sanitize content)) ≠ "") :
    (respond validUuid sanitize none sid content reg).result =
        RespondResult.ok sid timeoutApology ∧
    (respond validUuid sanitize none sid content reg).isEnd = some false ∧
    assocGet (respond validUuid sanitize none sid content reg).registry.workflows
        sid = some (getOrCreateWorkflow sid reg).1 := by
  refine ⟨?_, ?_, ?_⟩ <;> simp [respond, h1, h2, h3, getOrCreateWorkflow_lookup]

/-- C4 witness: a concrete timed-out turn yields the apology, terminal flag
false, and a still-registered workflow. -/
theorem respond_timeout_not_terminal_witness :
    ("s1" : String) ≠ "" ∧
    (fun _ : String => true) ("s1") = true ∧
    pyStrip (truncateInput ((fun s => s) ("发烧三天"))) ≠ "" ∧
    ((respond (fun _ => true) (fun s => s) none ("s1") ("发烧三天")
          ⟨[], 0⟩).result = RespondResult.ok ("s1") timeoutApology ∧
      (respond (fun _ => true) (fun s => s) none ("s1") ("发烧三天")
          ⟨[], 0⟩).isEnd = some false ∧
      assocGet (respond (fun _ => true) (fun s => s) none ("s1") ("发烧三天")
          ⟨[], 0⟩).registry.workflows ("s1") =
        some (getOrCreateWorkflow ("s1") ⟨[], 0⟩).1) :=
  ⟨by decide, rfl, by decide,
    respond_timeout_not_terminal (fun _ => true) (fun s => s) ("s1")
      ("发烧三天") ⟨[], 0⟩ (by decide) rfl (by decide)⟩

/-- C7: a malformed session id (the UUID validator rejects it) produces the
handled 400 error response with the detail message, leaves the registry
untouched (no workflow is constructed), and never invokes a workflow. -/
theorem respond_invalid_uuid_handled (validUuid : String → Bool)
    (sanitize : String → String) (turnResult : Option (String × Bool))
    (sid content : String) (reg : WorkflowRegistry)
    (h1 : sid ≠ "") (h2 : validUuid sid = false) :
    respond validUuid sanitize turnResult sid content reg =
      ⟨RespondResult.err 400 invalidSessionDetail, reg, false, none⟩ := by
  simp [respond, h1, h2]

/-- C7 witness: a concrete malformed id gives the 400 result and an
unchanged registry. -/
theorem respond_invalid_uuid_handled_witness :
    ("not-a-uuid" : String) ≠ "" ∧
    (fun _ : String => false) ("not-a-uuid") = false ∧
    respond (fun _ => false) (fun s => s) none ("not-a-uuid") ("hi") ⟨[], 0⟩ =
      ⟨RespondResult.err 400 invalidSessionDetail, ⟨[], 0⟩, false, none⟩ :=
  ⟨by decide, rfl,
    respond_invalid_uuid_handled (fun _ => false) (fun s => s) none
      ("not-a-uuid") ("hi") ⟨[], 0⟩ (by decide) rfl⟩

/-- C6 counterexample: on the very first call for a session with empty
patient text, respond returns the fixed guidance question without running
the turn loop at all — no workflow is created or invoked, refuting the
claim that the turn loop still runs. -/
theorem respond_empty_first_input_counterexample :
    (respond (fun _ => true) (fun s => s) (some (("q"), false))
        ("11111111-1111-1111-1111-111111111111") ("") ⟨[], 0⟩).invokedWorkflow
      = false ∧
    (respond (fun _ => true) (fun s => s) (some (("q"), false))
        ("11111111-1111-1111-1111-111111111111") ("") ⟨[], 0⟩).registry =
      ⟨[], 0⟩ ∧
    (respond (fun _ => true) (fun s => s) (some (("q"), false))
        ("11111111-1111-1111-1111-111111111111") ("") ⟨[], 0⟩).result =
      RespondResult.ok ("11111111-1111-1111-1111-111111111111")
        emptyInputGuide := by
  decide

/-- C6 amended: when the (sanitised, truncated) incoming text is empty, the
endpoint answers with the fixed system-initiated guidance question, appends
nothing, and neither creates nor invokes a session workflow. -/
theorem respond_empty_input_guide (validUuid : String → Bool)
    (sanitize : String → String) (turnResult : Option (String × Bool))
    (sid content : String) (reg : WorkflowRegistry)
    (h1 : sid ≠ "") (h2 : validUuid sid = true)
    (h3 : pyStrip (truncateInput (sanitize content)) = "") :
    respond validUuid sanitize turnResult sid content reg =
      ⟨RespondResult.ok sid emptyInputGuide, reg, false, none⟩ := by
  simp [respond, h1, h2, h3]

/-- C6 amended witness: concrete empty first input. -/
theorem respond_empty_input_guide_witness :
    ("s2" : String) ≠ "" ∧
    (fun _ : String => true) ("s2") = true ∧
    pyStrip (truncateInput ((fun s => s) (""))) = "" ∧
    respond (fun _ => true) (fun s => s) none ("s2") ("") ⟨[], 0⟩ =
      ⟨RespondResult.ok ("s2") emptyInputGuide, ⟨[], 0⟩, false, none⟩ :=
  ⟨by decide, rfl, by decide,
    respond_empty_input_guide (fun _ => true) (fun s => s) none ("s2") ("")
      ⟨[], 0⟩ (by decide) rfl (by decide)⟩

/-- C5 counterexample: with an empty pending list the score-driven selector
returns the fixed default 基本信息收集, not the current phase's first
declared catalog task (deptPrimary for the triage phase in the
spec-modelled catalog). -/
theorem scoreDriven_empty_pending_counterexample :
    ¬ ((getScoreDrivenResult [] ⟨Phase.triage, fun _ => []⟩).selected_task =
        specFirstDeclaredTask Phase.triage) := by
  decide

/-- C5 amended: with an empty pending list the score-driven selector
returns the fixed default decision naming 基本信息收集 — a phase-independent
constant, so the caller still always receives a (non-empty) task name. -/
theorem scoreDriven_empty_pending_default (tm : TaskManager) :
    getScoreDrivenResult [] tm = emptyPendingDecision ∧
    (getScoreDrivenResult [] tm).selected_task = "基本信息收集" ∧
    (getScoreDrivenResult [] tm).selected_task ≠ "" := by
  refine ⟨rfl, rfl, ?_⟩
  exact (by decide : ("基本信息收集" : String) ≠ "")

/-- C8: the assessor result type bounds its completion score: construction
succeeds only inside [0, 1], rejects any out-of-range score, and therefore
every score a record step puts on the (spec-modelled) score board stays in
[0, 1], starting from the empty board. -/
theorem monitor_score_in_unit_interval :
    (∀ (s : ℚ) (r : String) (m : MonitorResult), mkMonitorResult s r = some m →
      0 ≤ m.completion_score ∧ m.completion_score ≤ 1) ∧
    (∀ (s : ℚ) (r : String), (s < 0 ∨ 1 < s) → mkMonitorResult s r = none) ∧
    (∀ (b : ScoreBoard) (key : String × Phase × String) (s : ℚ) (r : String)
        (m : MonitorResult), ScoreBoard.allInRange b →
      mkMonitorResult s r = some m →
      ScoreBoard.allInRange (ScoreBoard.record b key m)) ∧
    ScoreBoard.allInRange ScoreBoard.empty := by
  refine ⟨fun s r m h => mkMonitorResult_range s r m h, ?_, ?_, ?_⟩
  · intro s r hs
    unfold mkMonitorResult
    split_ifs with hc
    · rcases hs with h | h
      · exact absurd hc.1 (not_le.mpr h)
      · exact absurd hc.2 (not_le.mpr h)
    · rfl
  · intro b key s r m hb hm p hp
    rcases List.mem_cons.mp hp with h | h
    · have := mkMonitorResult_range s r m hm
      subst h
      exact this
    · exact hb p h
  · intro p hp
    simp [ScoreBoard.empty] at hp

/-- C8 witness: a concrete in-range score is accepted and lands on the
board in range; a concrete out-of-range score is rejected. -/
theorem monitor_score_in_unit_interval_witness :
    mkMonitorResult (1/2) ("ok") = some ⟨1/2, "ok"⟩ ∧
    (0 ≤ ((1 : ℚ)/2) ∧ ((1 : ℚ)/2) ≤ 1) ∧
    mkMonitorResult (3/2) ("bad") = none ∧
    ScoreBoard.allInRange
      (ScoreBoard.record ScoreBoard.empty (("sess"), Phase.triage, ("task"))
        ⟨1/2, "ok"⟩) := by
  have hmk : mkMonitorResult (1/2) ("ok") = some ⟨1/2, "ok"⟩ := by
    norm_num [mkMonitorResult]
  refine ⟨hmk, monitor_score_in_unit_interval.1 (1/2) ("ok") ⟨1/2, "ok"⟩ hmk, ?_, ?_⟩
  · exact monitor_score_in_unit_interval.2.1 (3/2) ("bad") (Or.inr (by norm_num))
  · exact monitor_score_in_unit_interval.2.2.1 ScoreBoard.empty
      (("sess"), Phase.triage, ("task")) (1/2) ("ok") ⟨1/2, "ok"⟩
      monitor_score_in_unit_interval.2.2.2 hmk

/-- C9: get_historical_scores returns the empty map for any round at most 1
and for a session with no recorded history; for a later round it returns
exactly the score map of the most recently added round. -/
theorem historicalScores_latest_round (mgr : ScoreHistoryManager)
    (session_id : String) (r : Int) :
    (r ≤ 1 → getHistoricalScores mgr r session_id = []) ∧
    (assocGet mgr.history session_id = none →
      getHistoricalScores mgr r session_id = []) ∧
    (∀ (rn : Int) (scores : List (String × ℚ)), 1 < r →
      getHistoricalScores (addRoundScore mgr rn scores session_id) r
        session_id = scores) := by
  refine ⟨?_, ?_, ?_⟩
  · intro h
    unfold getHistoricalScores
    cases hg : assocGet mgr.history session_id with
    | none => rfl
    | some records => simp [h]
  · intro h
    simp [getHistoricalScores, h]
  · intro rn scores hr
    have h1 : ¬ (r ≤ 1) := not_le.mpr hr
    simp [getHistoricalScores, addRoundScore, assocGet_assocSet_self, h1]

/-- C9 witness: after recording round 1 for a fresh session, round 2 reads
back exactly that score map. -/
theorem historicalScores_latest_round_witness :
    (1 : Int) < 2 ∧
    getHistoricalScores (addRoundScore ⟨[]⟩ 1 [("任务A", 1/2)] ("sess")) 2
      ("sess") = [("任务A", 1/2)] :=
  ⟨by decide,
    (historicalScores_latest_round ⟨[]⟩ ("sess") 2).2.2 1 [("任务A", 1/2)]
      (by decide)⟩

/-- C10: the inquiry-guidance lookup is a total function of the loaded
guidance map: a present department is formatted as a "- item" bullet list,
a missing one falls back to the 其他 entry when it exists, and otherwise
the empty string is returned. -/
theorem inquiryGuidance_total_fallback (allGuidance : List (String × List String))
    (department : String) :
    (∀ l, assocGet allGuidance department = some l →
      getInquiryGuidanceData allGuidance department = formatGuidanceList l) ∧
    (assocGet allGuidance department = none →
      ∀ l, assocGet allGuidance ("其他") = some l →
        getInquiryGuidanceData allGuidance department = formatGuidanceList l) ∧
    (assocGet allGuidance department = none →
      assocGet allGuidance ("其他") = none →
      getInquiryGuidanceData allGuidance department = "") := by
  refine ⟨?_, ?_, ?_⟩
  · intro l h
    simp [getInquiryGuidanceData, h]
  · intro h l h2
    simp [getInquiryGuidanceData, h, h2]
  · intro h h2
    simp [getInquiryGuidanceData, h, h2]

/-- C10 witness: a department absent from a concrete map falls back to the
其他 entry, formatted as a bullet list. -/
theorem inquiryGuidance_total_fallback_witness :
    assocGet [("内科", ["询问症状"]), ("其他", ["通用询问"])] ("眼科") =
      (none : Option (List String)) ∧
    assocGet [("内科", ["询问症状"]), ("其他", ["通用询问"])] ("其他") =
      some ["通用询问"] ∧
    getInquiryGuidanceData [("内科", ["询问症状"]), ("其他", ["通用询问"])]
      ("眼科") = formatGuidanceList ["通用询问"] :=
  ⟨by decide, by decide,
    (inquiryGuidance_total_fallback [("内科", ["询问症状"]), ("其他", ["通用询问"])]
      ("眼科")).2.1 (by decide) ["通用询问"] (by decide)⟩

/-- Characterisation of the score-driven selection loop: started at a best
task whose recorded score is its own task score, it ends at the first task
of the extended list attaining the minimum score — every task strictly
before the result scores strictly higher, every task at all scores at least
as high. -/
theorem lowestLoop_spec (scores : List (String × ℚ)) :
    ∀ (ts : List TaskEntry) (bt : TaskEntry) (bs : ℚ),
      bs = taskScore scores bt →
      ∃ pre b' post bs',
        lowestLoop scores ts (some (bt, bs)) = some (b', bs') ∧
        bt :: ts = pre ++ b' :: post ∧
        (∀ u ∈ bt :: ts, taskScore scores b' ≤ taskScore scores u) ∧
        (∀ u ∈ pre, taskScore scores b' < taskScore scores u) := by
  intro ts
  induction ts with
  | nil =>
      intro bt bs h
      refine ⟨[], bt, [], bs, rfl, rfl, ?_, ?_⟩
      · intro u hu
        rcases List.mem_singleton.mp hu with rfl
        exact le_refl _
      · intro u hu
        exact absurd hu (List.not_mem_nil u)
  | cons t' ts ih =>
      intro bt bs h
      by_cases hlt : taskScore scores t' < bs
      · have heq : lowestLoop scores (t' :: ts) (some (bt, bs)) =
            lowestLoop scores ts (some (t', taskScore scores t')) := by
          simp [lowestLoop, hlt]
        obtain ⟨pre, b', post, bs', hres, hdec, hmin, hstrict⟩ :=
          ih t' (taskScore scores t') rfl
        have hbt : taskScore scores b' < taskScore scores bt := by
          have h1 : taskScore scores b' ≤ taskScore scores t' :=
            hmin t' (List.mem_cons_self _ _)
          have h2 : taskScore scores t' < taskScore scores bt := h ▸ hlt
          exact lt_of_le_of_lt h1 h2
        refine ⟨bt :: pre, b', post, bs', heq ▸ hres, ?_, ?_, ?_⟩
        · rw [List.cons_append]
          exact congrArg (List.cons bt) hdec
        · intro u hu
          rcases List.mem_cons.mp hu with rfl | hu
          · exact le_of_lt hbt
          · exact hmin u hu
        · intro u hu
          rcases List.mem_cons.mp hu with rfl | hu
          · exact hbt
          · exact hstrict u hu
      · have hge : bs ≤ taskScore scores t' := not_lt.mp hlt
        have heq : lowestLoop scores (t' :: ts) (some (bt, bs)) =
            lowestLoop scores ts (some (bt, bs)) := by
          simp [lowestLoop, hlt]
        obtain ⟨pre, b', post, bs', hres, hdec, hmin, hstrict⟩ := ih bt bs h
        cases pre with
        | nil =>
            rw [List.nil_append] at hdec
            obtain ⟨hb, hp⟩ := List.cons.inj hdec
            subst hb
            refine ⟨[], bt, t' :: ts, bs', heq ▸ hres, rfl, ?_, ?_⟩
            · intro u hu
              rcases List.mem_cons.mp hu with rfl | hu
              · exact le_refl _
              · rcases List.mem_cons.mp hu with rfl | hu
                · exact h ▸ hge
                · exact hmin u (List.mem_cons_of_mem bt hu)
            · intro u hu
              exact absurd hu (List.not_mem_nil u)
        | cons p ps =>
            rw [List.cons_append] at hdec
            obtain ⟨hb, hp⟩ := List.cons.inj hdec
            subst hb
            have hbtlt : taskScore scores b' < taskScore scores bt :=
              hstrict bt (List.mem_cons_self _ _)
            have ht' : taskScore scores b' < taskScore scores t' := by
              calc taskScore scores b' < taskScore scores bt := hbtlt
                _ = bs := h.symm
                _ ≤ taskScore scores t' := hge
            refine ⟨bt :: t' :: ps, b', post, bs', heq ▸ hres, ?_, ?_, ?_⟩
            · rw [hp]
              simp
            · intro u hu
              rcases List.mem_cons.mp hu with rfl | hu
              · exact le_of_lt hbtlt
              · rcases List.mem_cons.mp hu with rfl | hu
                · exact le_of_lt ht'
                · exact hmin u (List.mem_cons_of_mem bt hu)
            · intro u hu
              rcases List.mem_cons.mp hu with rfl | hu
              · exact hbtlt
              · rcases List.mem_cons.mp hu with rfl | hu
                · exact ht'
                · exact hstrict u (List.mem_cons_of_mem bt hu)

/-- C1: on a non-empty pending list the score-driven selector returns a
pending task whose score (looked up in the phase score map, defaulting to
0) is minimal over the pending tasks, and it is the earliest such task in
the given order — every pending task listed before it scores strictly
higher. -/
theorem scoreDriven_first_argmin (pending : List TaskEntry) (tm : TaskManager)
    (h : pending ≠ []) :
    ∃ pre t post,
      pending = pre ++ t :: post ∧
      (getScoreDrivenResult pending tm).selected_task = t.name ∧
      (∀ u ∈ pending,
        taskScore (tm.taskScores tm.currentPhase) t ≤
          taskScore (tm.taskScores tm.currentPhase) u) ∧
      (∀ u ∈ pre,
        taskScore (tm.taskScores tm.currentPhase) t <
          taskScore (tm.taskScores tm.currentPhase) u) := by
  cases pending with
  | nil => exact absurd rfl h
  | cons t0 ts =>
      obtain ⟨pre, b', post, bs', hres, hdec, hmin, hstrict⟩ :=
        lowestLoop_spec (tm.taskScores tm.currentPhase) ts t0
          (taskScore (tm.taskScores tm.currentPhase) t0) rfl
      have hloop : lowestLoop (tm.taskScores tm.currentPhase) (t0 :: ts) none =
          some (b', bs') := hres
      refine ⟨pre, b', post, hdec, ?_, hmin, hstrict⟩
      simp [getScoreDrivenResult, hloop]

/-- C1 witness: with scores 甲 at 3/4 and 乙 at 1/4 the selector picks 乙,
the unique minimum. -/
theorem scoreDriven_first_argmin_witness :
    ([⟨"甲", "d1"⟩, ⟨"乙", "d2"⟩] : List TaskEntry) ≠ [] ∧
    (∃ pre t post,
      ([⟨"甲", "d1"⟩, ⟨"乙", "d2"⟩] : List TaskEntry) = pre ++ t :: post ∧
      (getScoreDrivenResult [⟨"甲", "d1"⟩, ⟨"乙", "d2"⟩]
        ⟨Phase.triage, fun _ => [("甲", 3/4), ("乙", 1/4)]⟩).selected_task =
          t.name ∧
      (∀ u ∈ ([⟨"甲", "d1"⟩, ⟨"乙", "d2"⟩] : List TaskEntry),
        taskScore [("甲", (3 : ℚ)/4), ("乙", 1/4)] t ≤
          taskScore [("甲", (3 : ℚ)/4), ("乙", 1/4)] u) ∧
      (∀ u ∈ pre,
        taskScore [("甲", (3 : ℚ)/4), ("乙", 1/4)] t <
          taskScore [("甲", (3 : ℚ)/4), ("乙", 1/4)] u)) :=
  ⟨by decide,
    scoreDriven_first_argmin [⟨"甲", "d1"⟩, ⟨"乙", "d2"⟩]
      ⟨Phase.triage, fun _ => [("甲", 3/4), ("乙", 1/4)]⟩ (by decide)⟩


/-- C3: two near-simultaneous first requests for one new session id
construct exactly one workflow instance, and the other caller receives
that same instance.  The endpoint coroutines share one asyncio event loop,
and the get-or-create block of respond (map check, construction, locked
insertion) contains no suspension point: its only await is the
creation-lock acquire, which returns synchronously because the lock is
free, being held only inside this same non-suspending block.  Each request
therefore executes the block atomically and the event loop merely orders
the two executions, so the realizable behaviours are exactly the two
sequential compositions of getOrCreateWorkflow, which are symmetric in the
callers: starting from a registry without the session id, the first
execution constructs and registers one instance (the construction counter
advances by exactly one) and the second execution returns that same
instance and changes nothing. -/
theorem registry_single_construction_shared_instance (sid : String)
    (reg : WorkflowRegistry) (h : assocGet reg.workflows sid = none) :
    (getOrCreateWorkflow sid (getOrCreateWorkflow sid reg).2).1 =
      (getOrCreateWorkflow sid reg).1 ∧
    (getOrCreateWorkflow sid (getOrCreateWorkflow sid reg).2).2 =
      (getOrCreateWorkflow sid reg).2 ∧
    (getOrCreateWorkflow sid reg).2.nextWf = reg.nextWf + 1 ∧
    assocGet (getOrCreateWorkflow sid reg).2.workflows sid =
      some (getOrCreateWorkflow sid reg).1 := by
  have hfound := getOrCreateWorkflow_found sid (getOrCreateWorkflow sid reg).2
    (getOrCreateWorkflow sid reg).1 (getOrCreateWorkflow_lookup sid reg)
  refine ⟨by rw [hfound], by rw [hfound], ?_, getOrCreateWorkflow_lookup sid reg⟩
  simp [getOrCreateWorkflow, h]

/-- C3 witness: from an empty registry, the first request for a fresh
session id constructs the single instance and the second request receives
the same one. -/
theorem registry_single_construction_shared_instance_witness :
    assocGet (⟨[], 0⟩ : WorkflowRegistry).workflows ("sess-1") = none ∧
    ((getOrCreateWorkflow ("sess-1")
        (getOrCreateWorkflow ("sess-1") ⟨[], 0⟩).2).1 =
      (getOrCreateWorkflow ("sess-1") ⟨[], 0⟩).1 ∧
    (getOrCreateWorkflow ("sess-1")
        (getOrCreateWorkflow ("sess-1") ⟨[], 0⟩).2).2 =
      (getOrCreateWorkflow ("sess-1") ⟨[], 0⟩).2 ∧
    (getOrCreateWorkflow ("sess-1") ⟨[], 0⟩).2.nextWf =
      (⟨[], 0⟩ : WorkflowRegistry).nextWf + 1 ∧
    assocGet (getOrCreateWorkflow ("sess-1") ⟨[], 0⟩).2.workflows ("sess-1") =
      some (getOrCreateWorkflow ("sess-1") ⟨[], 0⟩).1) :=
  ⟨rfl, registry_single_construction_shared_instance ("sess-1") ⟨[], 0⟩ rfl⟩

end MedSynthAI
